import Mathlib

/-!
Verification of `const-concat` (compile-time string concatenation via
`macro_rules`-style expansion and unsafe byte reinterpretation).

Shallow embedding choices:
* A byte sequence (`[u8; N]`, `&[u8]`, or the UTF-8 bytes behind a `&str`)
  is a `List Nat` of its bytes in order.
* `transmute::<From, To>` reads the first `size_of::<To>()` bytes of the
  representation of its argument (both union fields sit at offset 0), so it
  is modelled as taking a prefix of the byte list.
* Each arm of the `const_concat!` declarative macro becomes a function.
  An expansion that the host compiler rejects (no matching arm, or a call
  to a method that does not exist, such as `as_bytes` on `&[u8]`) is
  modelled as `none`; a successful constant is `some bytes`.
-/

namespace ConstConcat

/-- Model of `pub const unsafe fn transmute<From, To>(from: From) -> To`:
the union puts `from` and `to` at offset 0, so reading `to` reads the first
`size_of::<To>()` bytes of the representation of `from`. `szTo` is
`size_of::<To>()` and `v` is the byte representation of `from`. -/
def transmute (szTo : Nat) (v : List Nat) : List Nat :=
  v.take szTo

/-- Model of `pub const unsafe fn concat_inner<First, Second, Out>`:
`First`, `Second`, `Out` are byte arrays, represented here by their sizes.
The body builds `Both(*transmute::<_, &First>(a), *transmute::<_, &Second>(b))`
— a `#[repr(C)]` pair of byte arrays, hence the two fields laid out
contiguously with no padding — and transmutes that composite to `Out`. -/
def concat_inner (First Second Out : Nat) (a b : List Nat) : List Nat :=
  transmute Out (transmute First a ++ transmute Second b)

/-- The `@bytes` arm of `const_concat!`: instantiates `concat_inner` with
`First = [u8; a.len()]`, `Second = [u8; b.len()]`,
`Out = [u8; a.len() + b.len()]`. -/
def bytesArm (a b : List Nat) : List Nat :=
  concat_inner a.length b.length (a.length + b.length) a b

/-- An argument expression handed to the macro: either a `&str` constant
(carrying its UTF-8 bytes) or a `&[u8]`/byte-array value. -/
inductive Val where
  | str (bytes : List Nat)
  | bytes (bytes : List Nat)
deriving DecidableEq

/-- Method call `.as_bytes()` as the macro expansion inserts it: defined on
`&str` (yielding the underlying bytes); `&[u8]` has no such method, so on a
byte value the expansion fails to compile (`none`). -/
def as_bytes : Val → Option (List Nat)
  | .str b => some b
  | .bytes _ => none

/-- The `@inner` arms of `const_concat!`.
Two arguments: `const_concat!(@bytes $a.as_bytes(), $b.as_bytes())`.
Three or more: `const_concat!(@bytes $a.as_bytes(), &const_concat!(@inner $($rest),*))`.
No `@inner` arm matches zero or one argument, so those invocations are
compile errors (`none`). -/
def innerArm : List Val → Option (List Nat)
  | [a, b] => do
      let ab ← as_bytes a
      let bb ← as_bytes b
      some (bytesArm ab bb)
  | a :: rest => do
      let ab ← as_bytes a
      let rb ← innerArm rest
      some (bytesArm ab rb)
  | [] => none

/-- The entry arms of `const_concat!`.
Exactly two arguments match the first arm, which expands to
`@inner $a.as_bytes(), $b.as_bytes()` — note it applies `.as_bytes()`
before handing the expressions to `@inner`, which applies it again.
Three or more arguments match the variadic arm, which hands the raw
expressions to `@inner`. The final `transmute::<_, &'static str>(bytes)`
reinterprets the resulting byte array as a string, so the result bytes are
returned unchanged. Zero or one argument matches no arm (`none`). -/
def const_concat : List Val → Option (List Nat)
  | [a, b] => do
      let ab ← as_bytes a
      let bb ← as_bytes b
      innerArm [Val.bytes ab, Val.bytes bb]
  | a :: b :: rest => innerArm (a :: b :: rest)
  | _ => none

/-- The trailing-comma arm `($a:expr, $($rest:expr),*,)`, which expands to
`const_concat!($a, $($rest),*)` on the same arguments without the trailing
comma (the trailing semicolon in the arm body is dropped by the host
compiler when the macro is used in expression position). It requires at
least one argument before the trailing comma. -/
def const_concat_trailing : List Val → Option (List Nat)
  | a :: rest => const_concat (a :: rest)
  | [] => none

/-- `concat_inner` with its unsafe preconditions made explicit: reading a
`First`-sized array through the transmuted slice reference requires the
slice to hold at least `First` bytes (same for `Second`), and the final
transmute of the composite to `Out` requires `Out` to fit in the composite.
Outside those bounds the source operation is undefined (`none`). -/
def concat_inner_safe (First Second Out : Nat) (a b : List Nat) :
    Option (List Nat) :=
  if First ≤ a.length ∧ Second ≤ b.length ∧ Out ≤ First + Second then
    some (concat_inner First Second Out a b)
  else
    none

/-- Right fold of the binary byte-level concatenation primitive, the
reduction order the `@inner` recursive arm is specified to implement. -/
def foldConcat : List (List Nat) → List Nat
  | [] => []
  | [a] => a
  | a :: rest => bytesArm a (foldConcat rest)

/-- The UTF-8 bytes of the ASCII string literals used by the repository's
own test `tests::top_level_constants`. -/
def helloBytes : List Nat := [72, 101, 108, 108, 111]

def commaSpaceBytes : List Nat := [44, 32]

def worldBytes : List Nat := [119, 111, 114, 108, 100]

def bangBytes : List Nat := [33]

def helloWorldBytes : List Nat :=
  [72, 101, 108, 108, 111, 44, 32, 119, 111, 114, 108, 100, 33]

/-- The binary primitive at matching lengths is plain list append. -/
theorem bytesArm_eq_append (a b : List Nat) : bytesArm a b = a ++ b := by
  simp [bytesArm, concat_inner, transmute]

/-- C1: `concat_inner`, instantiated as the `@bytes` arm does with
`First = [u8; L1]`, `Second = [u8; L2]`, `Out = [u8; L1 + L2]`, returns a
byte sequence of length `L1 + L2` whose first `L1` bytes equal `a` and
whose remaining `L2` bytes equal `b`. -/
theorem concat_inner_correct (L1 L2 : Nat) (a b : List Nat)
    (h1 : a.length = L1) (h2 : b.length = L2) :
    (concat_inner L1 L2 (L1 + L2) a b).length = L1 + L2 ∧
    (concat_inner L1 L2 (L1 + L2) a b).take L1 = a ∧
    (concat_inner L1 L2 (L1 + L2) a b).drop L1 = b := by
  subst h1
  subst h2
  have h : concat_inner a.length b.length (a.length + b.length) a b = a ++ b :=
    bytesArm_eq_append a b
  rw [h]
  refine ⟨List.length_append a b, ?_, ?_⟩
  · exact List.take_left a b
  · exact List.drop_left a b

/-- Witness for C1 at `a = [10, 20]`, `b = [30]`. -/
theorem concat_inner_correct_witness :
    ([10, 20] : List Nat).length = 2 ∧ ([30] : List Nat).length = 1 ∧
    ((concat_inner 2 1 (2 + 1) [10, 20] [30]).length = 2 + 1 ∧
     (concat_inner 2 1 (2 + 1) [10, 20] [30]).take 2 = [10, 20] ∧
     (concat_inner 2 1 (2 + 1) [10, 20] [30]).drop 2 = [30]) :=
  ⟨rfl, rfl, concat_inner_correct 2 1 [10, 20] [30] rfl rfl⟩

/-- C2: refuted as stated and traced to a code slip. The two-argument entry
arm of `const_concat!` expands to `@inner $a.as_bytes(), $b.as_bytes()`,
and the two-argument `@inner` arm applies `.as_bytes()` to its arguments
once more; `&[u8]` has no `as_bytes` method, so the two-literal invocation
fails to compile (`none`) instead of yielding the runtime concatenation.
The second conjunct shows the evident intent: handing the string literals
to `@inner` directly yields exactly the runtime concatenation. -/
theorem two_arg_concat_fails :
    const_concat [Val.str helloBytes, Val.str worldBytes] = none ∧
    innerArm [Val.str helloBytes, Val.str worldBytes] =
      some (helloBytes ++ worldBytes) := by
  constructor
  · rfl
  · decide

/-- C3: the concatenation operation is associative: reducing three byte
sequences left-to-right or right-to-left through the binary primitive
yields the same value, and the three-literal macro invocation produces
exactly that value. -/
theorem concat_assoc (a b c : List Nat) :
    bytesArm (bytesArm a b) c = bytesArm a (bytesArm b c) ∧
    const_concat [Val.str a, Val.str b, Val.str c] =
      some (bytesArm a (bytesArm b c)) := by
  constructor
  · rw [bytesArm_eq_append a b, bytesArm_eq_append b c,
      bytesArm_eq_append (a ++ b) c, bytesArm_eq_append a (b ++ c)]
    exact List.append_assoc a b c
  · rfl

/-- C4 counterexample: concatenating the single literal `"!"` does not
yield that literal; no macro arm matches a single argument, so the
invocation is rejected (`none`). -/
theorem single_literal_not_identity :
    ¬ const_concat [Val.str bangBytes] = some bangBytes := by
  decide

/-- C4 amended: single-literal and zero-literal invocations match no arm of
`const_concat!` and are rejected at compile time; the empty string is a
two-sided identity of the underlying binary concatenation primitive. -/
theorem empty_identity (l : List Nat) :
    const_concat [Val.str l] = none ∧ const_concat [] = none ∧
    bytesArm [] l = l ∧ bytesArm l [] = l := by
  refine ⟨rfl, rfl, ?_, ?_⟩
  · rw [bytesArm_eq_append]
    exact List.nil_append l
  · rw [bytesArm_eq_append]
    exact List.append_nil l

/-- C5: for two or more arguments, the trailing-comma invocation form
expands to the non-trailing form on the same arguments, hence yields the
same resulting value. -/
theorem trailing_form_eq (args : List Val) (h : 2 ≤ args.length) :
    const_concat_trailing args = const_concat args := by
  cases args with
  | nil => simp at h
  | cons a rest => rfl

/-- Witness for C5 at the three literals `"Hello"`, `"world"`, `"!"`. -/
theorem trailing_form_eq_witness :
    2 ≤ ([Val.str helloBytes, Val.str worldBytes, Val.str bangBytes] :
        List Val).length ∧
    const_concat_trailing
        [Val.str helloBytes, Val.str worldBytes, Val.str bangBytes] =
      const_concat
        [Val.str helloBytes, Val.str worldBytes, Val.str bangBytes] :=
  ⟨by decide,
    trailing_form_eq [Val.str helloBytes, Val.str worldBytes, Val.str bangBytes]
      (by decide)⟩

/-- C6: under the precondition that the input slices have the declared
array lengths (the only instantiation the macro produces), every error
branch of the embedded operation is unreachable: the guarded model of
`concat_inner` always returns `some`, never signalling a failure. -/
theorem no_runtime_error (First Second : Nat) (a b : List Nat)
    (h1 : a.length = First) (h2 : b.length = Second) :
    concat_inner_safe First Second (First + Second) a b =
      some (concat_inner First Second (First + Second) a b) := by
  unfold concat_inner_safe
  rw [if_pos]
  exact ⟨h1 ▸ Nat.le_refl _, h2 ▸ Nat.le_refl _, Nat.le_refl _⟩

/-- Witness for C6 at `a = [1, 2]`, `b = [3]`. -/
theorem no_runtime_error_witness :
    ([1, 2] : List Nat).length = 2 ∧ ([3] : List Nat).length = 1 ∧
    concat_inner_safe 2 1 (2 + 1) [1, 2] [3] =
      some (concat_inner 2 1 (2 + 1) [1, 2] [3]) :=
  ⟨rfl, rfl, no_runtime_error 2 1 [1, 2] [3] rfl rfl⟩

/-- C7: `const_concat!("Hello", ", ", "world", "!")` yields
`"Hello, world!"`. -/
theorem hello_world_example :
    const_concat
        [Val.str helloBytes, Val.str commaSpaceBytes,
         Val.str worldBytes, Val.str bangBytes] =
      some helloWorldBytes := by
  decide

/-- C8: in the instantiation the `@bytes` arm produces, the two input
lengths sum exactly to the output length, and the reinterpretation of the
`repr(C)` composite as the flat output array preserves byte ordering with
no padding bytes: the output is exactly the first input followed by the
second. -/
theorem length_invariant (a b : List Nat) :
    (bytesArm a b).length = a.length + b.length ∧ bytesArm a b = a ++ b := by
  rw [bytesArm_eq_append]
  exact ⟨List.length_append a b, rfl⟩

/-- C9: refuted at `N = 2` and traced to the same code slip as the
two-argument arm: the claim says every `N >= 2` invocation equals the right
fold of the binary primitive, but for exactly two literals the (broken)
dedicated arm matches instead of the variadic one and fails to compile,
while the fold yields their concatenation. For `N = 3` the variadic arm
does match and agrees with the fold, as the second conjunct shows. -/
theorem variadic_two_arg_diverges :
    ¬ const_concat [Val.str [97], Val.str [98]] =
        some (foldConcat [[97], [98]]) ∧
    const_concat [Val.str [97], Val.str [98], Val.str [99]] =
      some (foldConcat [[97], [98], [99]]) := by
  constructor
  · decide
  · decide

/-- C10: `transmute` is a pure byte reinterpretation: when the sizes of
`From` and `To` agree with the value's representation, transmuting to `To`
and back to `From` returns the original bytes, and transmuting a value to
its own type is the identity. -/
theorem transmute_roundtrip (s : Nat) (v : List Nat) (h : v.length = s) :
    transmute s (transmute s v) = v ∧ transmute s v = v := by
  have hid : transmute s v = v := by
    unfold transmute
    rw [← h]
    exact List.take_length v
  exact ⟨by rw [hid, hid], hid⟩

/-- Witness for C10 at the two-byte value `[5, 7]`. -/
theorem transmute_roundtrip_witness :
    ([5, 7] : List Nat).length = 2 ∧
    (transmute 2 (transmute 2 [5, 7]) = [5, 7] ∧ transmute 2 [5, 7] = [5, 7]) :=
  ⟨rfl, transmute_roundtrip 2 [5, 7] rfl⟩

end ConstConcat
